import Mathlib

/-!
Shallow embedding of the AI_QUERY_APP frontend (Next.js/TypeScript) and of the
parts of its backend that are described only by the specification.  The
frontend sources embedded here are `src/frontend/src/lib/api.ts`, the download
helpers, `DataTable.tsx`, `QueryInput.tsx` (the `QueryInput` and `ChartDisplay`
components), the `DataEditor` and `FileUpload` components.  JavaScript machine
numbers are modelled as integers (`Int`); the claims under study do not depend
on fractional or overflow behaviour.  Strings manipulated character by
character (CSV emission and parsing, filename extensions) are modelled as
`List Char`.
-/

/-- The double-quote character (written via its code point to keep the
    development free of quote-character literals). -/
def dq : Char := Char.ofNat 34

/-- The newline character. -/
def nl : Char := Char.ofNat 10

/-- A scalar cell value of a dataset row, as delivered over JSON:
    string/number/boolean/null.  Numbers are modelled as integers. -/
inductive CellValue where
  | vNull : CellValue
  | vBool : Bool → CellValue
  | vNum : Int → CellValue
  | vStr : String → CellValue
deriving DecidableEq

/-- A dataset row: a record mapping column names to scalar values
    (`Record<string, unknown>` in the frontend sources). -/
abbrev Row := List (String × CellValue)

/-- JS property access `row[key]`: `none` models `undefined` (key absent). -/
def lookupRow (r : Row) (k : String) : Option CellValue :=
  (r.find? (fun kv => kv.1 = k)).map Prod.snd

/-- The column-name list `Object.keys(row)`. -/
def rowKeys (r : Row) : List String := r.map Prod.fst

/-- `String(v)` on a scalar JS value. -/
def jsString : CellValue → String
  | CellValue.vNull => "null"
  | CellValue.vBool b => if b then "true" else "false"
  | CellValue.vNum n => toString n
  | CellValue.vStr s => s

/-- JS `String.prototype.toLowerCase` restricted to ASCII letters (the
    only characters the embedded code paths compare). -/
def toLowerChar (c : Char) : Char :=
  if 'A' ≤ c ∧ c ≤ 'Z' then Char.ofNat (c.toNat + 32) else c

/-- JS string-to-number conversion `Number(s)` on optional-sign decimal
    integer strings, the numeral shapes relevant to the claims: `none`
    models `NaN`; the empty/whitespace string converts to `0` as in JS. -/
def parseDigits : List Char → Nat → Option Nat
  | [], acc => some acc
  | c :: cs, acc =>
    if '0' ≤ c ∧ c ≤ '9' then parseDigits cs (acc * 10 + (c.toNat - 48)) else none

/-- Strip leading and trailing spaces (JS `trim`, restricted to the space
    character). -/
def trimSpaces (l : List Char) : List Char :=
  ((l.dropWhile (fun c => c = ' ')).reverse.dropWhile (fun c => c = ' ')).reverse

/-- See `parseDigits`: full `Number(s)` model. -/
def jsNumber (s : List Char) : Option Int :=
  match trimSpaces s with
  | [] => some 0
  | c :: cs =>
    if c = '-' then
      match cs with
      | [] => none
      | _ => (parseDigits cs 0).map (fun n => -(n : Int))
    else (parseDigits (c :: cs) 0).map (fun n => (n : Int))

/-- A JS exception value as observed by a `catch` arm: either an `Error`
    object carrying a message, or some other thrown value. -/
inductive Thrown where
  | errObj (message : String)
  | nonError

/-- The `error instanceof Error ? error.message : <default>` idiom. -/
def thrownMessage (fallback : String) : Thrown → String
  | Thrown.errObj m => m
  | Thrown.nonError => fallback

/-- JSON payloads (`unknown` fields of the API result types). -/
inductive JsonVal where
  | jnull
  | jbool (b : Bool)
  | jnum (n : Int)
  | jstr (s : String)
  | jarr (elems : List JsonVal)
  | jobj (fields : List (String × JsonVal))

/-- `Object.keys` on a JSON value (empty for non-objects). -/
def objKeys : JsonVal → List String
  | JsonVal.jobj fs => fs.map Prod.fst
  | _ => []

/-- `QueryResult` from `src/frontend/src/lib/api.ts`.  The TS type unions the
    `result_type` field over four string literals; the field itself is a
    string. -/
structure QueryResult where
  query : String
  result_type : String
  data : JsonVal
  explanation : String
  pandas_code : Option String
  execution_time_ms : Nat

/-- The `result_type` union of `api.ts`:
    `"table" | "value" | "text" | "error"`. -/
def resultTypeValid (s : String) : Bool :=
  s = "table" || s = "value" || s = "text" || s = "error"

/-- From the words of the claim under study (spec §3, Query Result bullet):
    the claimed discriminant list `table/scalar/text/error`, stated for
    comparison with `resultTypeValid`. -/
def claimedResultKinds : List String := ["table", "scalar", "text", "error"]

/-- `ChartConfig` from `api.ts`. -/
structure ChartConfig where
  chart_type : String
  title : String
  x_axis : Option String
  y_axis : Option String
  x_label : Option String
  y_label : Option String

/-- The `chart_type` union of `api.ts`:
    `"bar" | "line" | "pie" | "scatter" | "area"`. -/
def chartTypeValid (s : String) : Bool :=
  s = "bar" || s = "line" || s = "pie" || s = "scatter" || s = "area"

/-- `ChartResponse` from `api.ts` (`error` is an optional field). -/
structure ChartResponse where
  success : Bool
  config : ChartConfig
  data : List Row
  explanation : String
  error : Option String

/-- `DataModifyResult` from `api.ts`. -/
structure DataModifyResult where
  success : Bool
  message : String
  changes_made : String
  rows_affected : Nat
  pandas_code : Option String

/-- JS `a || b` on an optional string: `undefined`, `null` and the empty
    string are falsy. -/
def jsOrString (v : Option String) (fallback : String) : String :=
  match v with
  | some s => if s = "" then fallback else s
  | none => fallback

/-! ### DataEditor.handleModify (src/unnamed/part_000)

The request outcome is modelled as `Except Thrown DataModifyResult`: `ok` for
a resolved `modifyData` call, `error` for a rejected one.  The function
returns the `result` state that is set and whether `onModifySuccess` was
invoked. -/

def handleModify (outcome : Except Thrown DataModifyResult) :
    DataModifyResult × Bool :=
  match outcome with
  | Except.ok r => (r, r.success)
  | Except.error e =>
    ({ success := false
     , message := thrownMessage "Modification failed" e
     , changes_made := ""
     , rows_affected := 0
     , pandas_code := none }, false)

/-- Modelled from the spec (§4.4 Executor): the backend executor that applies
    a modification command to the stored row data is not part of the frontend
    sources.  Per the spec it is atomic from the caller's point of view: the
    command either produces a whole new row state (`some`) or fails (`none`);
    the store keeps the old rows exactly when the command fails.  Returns the
    resulting store state and the success flag reported to the caller. -/
def executeModify (cmd : List Row → Option (List Row)) (rows : List Row) :
    List Row × Bool :=
  match cmd rows with
  | some rows2 => (rows2, true)
  | none => (rows, false)

/-! ### QueryInput.handleSubmit (QueryInput.tsx, catch branch lines 47-55) -/

def handleSubmit (query : String) (outcome : Except Thrown QueryResult) :
    QueryResult :=
  match outcome with
  | Except.ok r => r
  | Except.error e =>
    { query := query
    , result_type := "error"
    , data := JsonVal.jnull
    , explanation := thrownMessage "Query failed" e
    , pandas_code := none
    , execution_time_ms := 0 }

/-- The rendered views produced by `renderResult` in `QueryInput.tsx`,
    abstracted to the payload each branch displays. -/
inductive ResultView where
  | tableView (rows : List JsonVal) (columns : List String)
  | noDataMsg
  | valueView (data : JsonVal)
  | textView (data : JsonVal)
  | errorView (message : String)
  | rawView (data : JsonVal)

/-- `renderResult` from `QueryInput.tsx` (lines 65-115): the switch over
    `result.result_type`. -/
def renderResult (r : QueryResult) : ResultView :=
  if r.result_type = "table" then
    match r.data with
    | JsonVal.jarr (x :: xs) => ResultView.tableView (x :: xs) (objKeys x)
    | _ => ResultView.noDataMsg
  else if r.result_type = "value" then ResultView.valueView r.data
  else if r.result_type = "text" then ResultView.textView r.data
  else if r.result_type = "error" then ResultView.errorView r.explanation
  else ResultView.rawView r.data

/-! ### ChartDisplay (QueryInput.tsx second component) -/

/-- The component state relevant to chart display: the `chartData` and
    `error` `useState` variables. -/
structure ChartDisplayState where
  chartData : Option ChartResponse
  errorMsg : Option String

/-- `handleGenerate` (lines 307-325): state transition on a completed
    `generateChart` request.  On `success` the response is stored and the
    error cleared; on `success=false` only the error message is set
    (`setChartData` is not called); a rejected request likewise only sets the
    error message. -/
def handleGenerate (st : ChartDisplayState)
    (outcome : Except Thrown ChartResponse) : ChartDisplayState :=
  match outcome with
  | Except.ok r =>
    if r.success then { chartData := some r, errorMsg := none }
    else { chartData := st.chartData
         , errorMsg := some (jsOrString r.error "Failed to generate chart") }
  | Except.error e =>
    { chartData := st.chartData
    , errorMsg := some (thrownMessage "Failed to generate chart" e) }

/-- The JSX condition `chartData && chartData.success` guarding the chart
    card. -/
def displaysChart (st : ChartDisplayState) : Bool :=
  match st.chartData with
  | some c => c.success
  | none => false

/-- Modelled from the spec (§3 invariant and §8 scenario): the backend chart
    generator is not part of the frontend sources.  Per the spec, a chart
    request whose generated config references a column absent from the target
    dataset's column list yields `success=false` with a descriptive error,
    never a crash. -/
def generateChartModel (columns : List String) (referencedColumn : String)
    (cfg : ChartConfig) (rows : List Row) (explanation : String) :
    ChartResponse :=
  if referencedColumn ∈ columns then
    { success := true, config := cfg, data := rows
    , explanation := explanation, error := none }
  else
    { success := false, config := cfg, data := []
    , explanation := explanation
    , error := some ("Column " ++ referencedColumn ++
        " does not exist in the dataset") }

/-! ### Sorting (DataTable.sortedData and the pie-chart top-10 selection)

`Array.prototype.sort` is required by the JS spec to be stable, and for a
consistent comparator it produces the unique stable order; it is modelled as
a stable insertion sort parameterised by the JS comparator. -/

def insertSorted {α : Type} (cmp : α → α → Int) (x : α) : List α → List α
  | [] => [x]
  | y :: ys => if cmp x y < 0 then x :: y :: ys else y :: insertSorted cmp x ys

/-- Stable sort with a JS comparator (negative means the first argument
    sorts earlier). -/
def jsSort {α : Type} (cmp : α → α → Int) (l : List α) : List α :=
  l.foldl (fun acc x => insertSorted cmp x acc) []

/-- Code-point comparison of character lists; models
    `String.prototype.localeCompare` (locale collation is modelled as
    code-point order, which agrees with it on the ASCII data at issue). -/
def charListCmp : List Char → List Char → Int
  | [], [] => 0
  | [], _ :: _ => -1
  | _ :: _, [] => 1
  | a :: as, b :: bs =>
    if a.toNat < b.toNat then -1
    else if b.toNat < a.toNat then 1
    else charListCmp as bs

inductive SortDir where
  | asc
  | desc
deriving DecidableEq

/-- `aVal === null || aVal === undefined` on a looked-up cell. -/
def isNullish : Option CellValue → Bool
  | none => true
  | some CellValue.vNull => true
  | _ => false

/-- The comparator closure of `DataTable.sortedData` (DataTable.tsx
    lines 51-67). -/
def rowCompare (col : String) (dir : SortDir) (a b : Row) : Int :=
  let aVal := lookupRow a col
  let bVal := lookupRow b col
  if isNullish aVal then 1
  else if isNullish bVal then -1
  else
    match aVal, bVal with
    | some (CellValue.vNum x), some (CellValue.vNum y) =>
      (match dir with | SortDir.asc => x - y | SortDir.desc => y - x)
    | _, _ =>
      let aStr := (jsString (aVal.getD CellValue.vNull)).data.map toLowerChar
      let bStr := (jsString (bVal.getD CellValue.vNull)).data.map toLowerChar
      (match dir with
       | SortDir.asc => charListCmp aStr bStr
       | SortDir.desc => charListCmp bStr aStr)

/-- `sortedData` from `DataTable.tsx` (lines 48-68): the page's rows as
    displayed; `data` unchanged when no sort column is active, otherwise a
    stable sort of a copy of `data` under the column comparator. -/
def sortedData (data : List Row) (sortColumn : Option String)
    (dir : SortDir) : List Row :=
  match sortColumn with
  | none => data
  | some col => jsSort (rowCompare col dir) data

/-- The argument triple passed to `onCellEdit` by `DataTable.saveEdit`. -/
structure CellEdit where
  rowIndex : Nat
  columnName : String
  newValue : CellValue

/-- `saveEdit` from `DataTable.tsx` (lines 89-103): `editingRow` is the
    position of the edited cell in the displayed (`sortedData`) order; the
    row index sent is `(currentPage - 1) * pageSize + editingCell.row`. -/
def saveEdit (currentPage pageSize : Nat) (editingRow : Nat)
    (editingColumn : String) (editValue : List Char) : CellEdit :=
  { rowIndex := (currentPage - 1) * pageSize + editingRow
  , columnName := editingColumn
  , newValue :=
      if (jsNumber editValue).isSome ∧ trimSpaces editValue ≠ [] then
        CellValue.vNum ((jsNumber editValue).getD 0)
      else CellValue.vStr (String.mk editValue) }

/-- `row[column] = v` for an existing column of a row. -/
def setField (r : Row) (col : String) (v : CellValue) : Row :=
  r.map (fun kv => if kv.1 = col then (kv.1, v) else kv)

/-- Modelled from the spec (§4.5 Dataset Store): the backend single-cell
    update (`PUT /api/data/{id}/cell`) is not part of the frontend sources.
    Per the spec it addresses the row by global index in the dataset's
    original order. -/
def updateCellStore (rows : List Row) (idx : Nat) (col : String)
    (v : CellValue) : List Row :=
  match rows.get? idx with
  | some r => rows.set idx (setField r col v)
  | none => rows

/-- Modelled from the spec (§4.5 Dataset Store): reading one cell by global
    row index and column name. -/
def readCell (rows : List Row) (idx : Nat) (col : String) : Option CellValue :=
  (rows.get? idx).bind (fun r => lookupRow r col)

/-! ### Pagination (spec §4.5 / §8; backend not in the frontend sources) -/

/-- Modelled from the spec: the paginated read returns the row slice of page
    `page` (1-based) of size `pageSize`, rows `(page-1)*pageSize` through
    `min(page*pageSize, R) - 1` of the stored order. -/
def pageSlice (rows : List Row) (page pageSize : Nat) : List Row :=
  (rows.drop ((page - 1) * pageSize)).take pageSize

/-- Modelled from the spec: the `total_pages` pagination metadatum,
    `ceil(R / P)` computed as `(R + P - 1) / P` in natural division. -/
def totalPages (totalRows pageSize : Nat) : Nat :=
  (totalRows + pageSize - 1) / pageSize

/-! ### Pie-chart top-10 selection (`renderChart`, QueryInput.tsx 411-415) -/

/-- `Number(row[yKey]) || 0`: the numeric y-axis value of a record,
    non-numeric values counted as 0 (`NaN`, `null`, missing, false). -/
def numOr0 : Option CellValue → Int
  | none => 0
  | some CellValue.vNull => 0
  | some (CellValue.vBool b) => if b then 1 else 0
  | some (CellValue.vNum n) => n
  | some (CellValue.vStr s) => (jsNumber s.data).getD 0

def pieValue (yKey : String) (r : Row) : Int := numOr0 (lookupRow r yKey)

/-- The pie comparator `(Number(b[yKey]) || 0) - (Number(a[yKey]) || 0)`
    (descending by value). -/
def pieCompare (yKey : String) (a b : Row) : Int :=
  pieValue yKey b - pieValue yKey a

/-- `pieData`: `[...data].sort(cmp).slice(0, 10)` — the sort operates on a
    copy, leaving `data` itself untouched. -/
def pieData (yKey : String) (data : List Row) : List Row :=
  (jsSort (pieCompare yKey) data).take 10

/-! ### renderChart (QueryInput.tsx 327-520) -/

/-- The rendered chart views, abstracted to the chart kind and the data and
    axis keys each branch feeds to the chart library. -/
inductive ChartView where
  | noDataView
  | barChart (data : List Row) (xKey yKey : String)
  | lineChart (data : List Row) (xKey yKey : String)
  | pieChart (slices : List Row) (xKey yKey : String)
  | scatterChart (data : List Row) (xKey yKey : String)
  | areaChart (data : List Row) (xKey yKey : String)
  | unsupported (chart_type : String)

/-- `config.x_axis || Object.keys(data[0])[0]`. -/
def chartXKey (cfg : ChartConfig) (data : List Row) : String :=
  jsOrString cfg.x_axis ((rowKeys data.headI).headI)

/-- `config.y_axis || Object.keys(data[0])[1] || "count"`. -/
def chartYKey (cfg : ChartConfig) (data : List Row) : String :=
  jsOrString cfg.y_axis (jsOrString ((rowKeys data.headI).get? 1) "count")

/-- `renderChart`: the empty-data guard, then the switch over
    `config.chart_type` with an `Unsupported chart type` default branch. -/
def renderChart (cfg : ChartConfig) (data : List Row) : ChartView :=
  if data = [] then ChartView.noDataView
  else
    let xKey := chartXKey cfg data
    let yKey := chartYKey cfg data
    if cfg.chart_type = "bar" then ChartView.barChart data xKey yKey
    else if cfg.chart_type = "line" then ChartView.lineChart data xKey yKey
    else if cfg.chart_type = "pie" then
      ChartView.pieChart (pieData yKey data) xKey yKey
    else if cfg.chart_type = "scatter" then
      ChartView.scatterChart data xKey yKey
    else if cfg.chart_type = "area" then ChartView.areaChart data xKey yKey
    else ChartView.unsupported cfg.chart_type

/-! ### FileUpload.onDrop (src/unnamed/part_001, lines 21-55) -/

/-- `name.lastIndexOf(c)` as an optional index. -/
def lastIndexOfChar (c : Char) : List Char → Option Nat
  | [] => none
  | x :: xs =>
    match lastIndexOfChar c xs with
    | some i => some (i + 1)
    | none => if x = c then some (0 : Nat) else none

/-- `file.name.substring(file.name.lastIndexOf(".")).toLowerCase()` — JS
    `substring` clamps the `-1` of a dotless name to `0`, yielding the whole
    name. -/
def fileExt (name : List Char) : List Char :=
  (name.drop (match lastIndexOfChar '.' name with
              | some i => i
              | none => 0)).map toLowerChar

/-- The accepted extensions `[".csv", ".xlsx", ".xls"]`. -/
def validTypes : List (List Char) := [".csv".data, ".xlsx".data, ".xls".data]

def invalidFileTypeMsg : String :=
  "Invalid file type. Please upload a CSV or Excel file."

/-- What `onDrop` does with a dropped file of a given name: report the
    validation error and return (no upload request), or issue exactly one
    upload request. -/
inductive UploadAction where
  | rejected (errorMsg : String)
  | uploadRequest
deriving DecidableEq

def onDrop (name : List Char) : UploadAction :=
  if fileExt name ∈ validTypes then UploadAction.uploadRequest
  else UploadAction.rejected invalidFileTypeMsg

/-- Number of upload requests issued for the drop. -/
def uploadRequestCount : UploadAction → Nat
  | UploadAction.rejected _ => 0
  | UploadAction.uploadRequest => 1

/-! ### downloadCSV (download helpers, lib file lines 195-225) -/

/-- `String(value ?? "")` on a looked-up field. -/
def stringValue (v : Option CellValue) : List Char :=
  (match v with
   | none => ""
   | some CellValue.vNull => ""
   | some w => jsString w).data

/-- `stringValue.replace(/"/g, m)` with `m` the doubled quote. -/
def doubleQuotes : List Char → List Char
  | [] => []
  | c :: cs =>
    if c = dq then dq :: dq :: doubleQuotes cs else c :: doubleQuotes cs

/-- The per-field escaping of `downloadCSV`: values containing a comma,
    double quote or newline are wrapped in double quotes with inner quotes
    doubled. -/
def escapeField (s : List Char) : List Char :=
  if ',' ∈ s ∨ dq ∈ s ∨ nl ∈ s then dq :: (doubleQuotes s ++ [dq]) else s

/-- `Array.prototype.join` with a one-character separator. -/
def joinWith (sep : Char) : List (List Char) → List Char
  | [] => []
  | [f] => f
  | f :: fs => f ++ sep :: joinWith sep fs

/-- The CSV text built by `downloadCSV`: the header row `headers.join(",")`
    (headers are not escaped), then one line per record with escaped field
    values, lines joined by a newline.  Empty data produces no file (early
    return). -/
def downloadCSV (data : List Row) : List Char :=
  match data with
  | [] => []
  | r0 :: _ =>
    joinWith nl
      (joinWith ',' ((rowKeys r0).map String.data) ::
        data.map (fun r =>
          joinWith ','
            ((rowKeys r0).map (fun h => escapeField (stringValue (lookupRow r h))))))

/-! ### A CSV reader, to state the round-trip property -/

/-- Prepend a character to the first segment of a split result. -/
def consHead (c : Char) : List (List Char) → List (List Char)
  | [] => [[c]]
  | h :: t => (c :: h) :: t

/-- Split a character stream at the occurrences of `sep` that lie outside
    double-quoted sections (a quote character toggles the in-quotes state). -/
def splitOutsideQuotes (sep : Char) : Bool → List Char → List (List Char)
  | _, [] => [[]]
  | inQuotes, c :: rest =>
    if c = dq then consHead c (splitOutsideQuotes sep (!inQuotes) rest)
    else if c = sep ∧ inQuotes = false then
      [] :: splitOutsideQuotes sep false rest
    else consHead c (splitOutsideQuotes sep inQuotes rest)

/-- Collapse doubled quotes. -/
def undoubleQuotes : List Char → List Char
  | [] => []
  | [c] => [c]
  | c :: d :: cs =>
    if c = dq ∧ d = dq then dq :: undoubleQuotes cs
    else c :: undoubleQuotes (d :: cs)

/-- Undo the field escaping: strip the surrounding quotes of a quoted field
    and collapse its doubled quotes; leave raw fields unchanged. -/
def unescapeField (f : List Char) : List Char :=
  match f with
  | [] => []
  | c :: rest => if c = dq then undoubleQuotes rest.dropLast else c :: rest

/-- Standard CSV reading: split into lines at unquoted newlines, each line
    into fields at unquoted commas, and unescape every field. -/
def parseCSV (s : List Char) : List (List (List Char)) :=
  (splitOutsideQuotes nl false s).map
    (fun line => (splitOutsideQuotes ',' false line).map unescapeField)

/-- Prepend a whole segment to the first segment of a split result
    (used to state how `splitOutsideQuotes` traverses an appended prefix). -/
def consSeg (s : List Char) (l : List (List Char)) : List (List Char) :=
  (s ++ l.headI) :: l.tail

/-- `s` is a separator-free self-contained segment for `sep`-splitting:
    appending it in front of any stream extends the stream's first segment
    by exactly `s`. -/
def SegP (sep : Char) (s : List Char) : Prop :=
  ∀ t, splitOutsideQuotes sep false (s ++ t)
        = consSeg s (splitOutsideQuotes sep false t)

/-! ## Helper lemmas -/

theorem charOfNat_toNat (n : Nat) (h : n.isValidChar) :
    (Char.ofNat n).toNat = n := by
  unfold Char.ofNat
  rw [dif_pos h]
  rfl

theorem toLowerChar_eq_dot {c : Char} (h : toLowerChar c = '.') : c = '.' := by
  unfold toLowerChar at h
  split at h
  · rename_i hr
    exfalso
    obtain ⟨h1, h2⟩ := hr
    have hA : (65 : Nat) ≤ c.toNat := h1
    have hZ : c.toNat ≤ 90 := h2
    have hv : (c.toNat + 32).isValidChar := by left; omega
    have h3 := congrArg Char.toNat h
    rw [charOfNat_toNat _ hv] at h3
    have h4 : ('.' : Char).toNat = 46 := rfl
    omega
  · exact h

theorem lastIndexOfChar_eq_none {c : Char} {l : List Char} (h : c ∉ l) :
    lastIndexOfChar c l = none := by
  induction l with
  | nil => rfl
  | cons x xs ih =>
    simp only [List.mem_cons, not_or] at h
    simp only [lastIndexOfChar, ih h.2]
    simp [Ne.symm h.1]

theorem dot_mem_of_fileExt_valid {name : List Char}
    (h : fileExt name ∈ validTypes) : '.' ∈ name := by
  unfold fileExt at h
  have hdot : '.' ∈ (name.drop (match lastIndexOfChar '.' name with
      | some i => i
      | none => 0)).map toLowerChar := by
    simp only [validTypes, List.mem_cons, List.not_mem_nil, or_false] at h
    rcases h with h | h | h <;> (rw [h]; decide)
  simp only [List.mem_map] at hdot
  obtain ⟨c, hc, hlc⟩ := hdot
  have := toLowerChar_eq_dot hlc
  subst this
  exact List.mem_of_mem_drop hc

/-! ## Claim theorems -/

/-- C2: a modify command is atomic from the caller's point of view — the
    executor reports success exactly when the command produced a new state,
    the store holds the command's new state on success and the old rows on
    failure — and the `DataEditor` frontend fires the `onModifySuccess`
    refresh callback if and only if the returned `DataModifyResult` has
    `success = true`. -/
theorem modify_atomic_and_callback_iff_success
    (cmd : List Row → Option (List Row)) (rows : List Row)
    (o : Except Thrown DataModifyResult) :
    ((executeModify cmd rows).2 = (cmd rows).isSome
      ∧ (executeModify cmd rows).1 = (cmd rows).getD rows)
    ∧ ((handleModify o).2 = true ↔ ∃ r, o = Except.ok r ∧ r.success = true) := by
  constructor
  · cases h : cmd rows <;> simp [executeModify, h]
  · cases o with
    | ok r => simp [handleModify]
    | error e => simp [handleModify]

/-- C3: every failed query submission yields the defined error-shaped
    `QueryResult` (result kind `error`, null data, null code, zero elapsed
    time, the error message as explanation), every failed modify submission
    yields the defined failure-shaped `DataModifyResult` (`success = false`,
    zero rows affected, null code, the error message as message), and every
    successful submission passes the backend result through — so the caller
    always receives one of the defined result kinds. -/
theorem failures_become_error_results (q : String) (e : Thrown)
    (qr : QueryResult) (mr : DataModifyResult) :
    (handleSubmit q (Except.error e) =
      { query := q, result_type := "error", data := JsonVal.jnull
      , explanation := thrownMessage "Query failed" e
      , pandas_code := none, execution_time_ms := 0 })
    ∧ (handleSubmit q (Except.ok qr) = qr)
    ∧ ((handleModify (Except.error e)).1 =
      { success := false, message := thrownMessage "Modification failed" e
      , changes_made := "", rows_affected := 0, pandas_code := none })
    ∧ ((handleModify (Except.ok mr)).1 = mr) :=
  ⟨rfl, rfl, rfl, rfl⟩

/-- C5 (counterexample): the claim's discriminant list
    `table/scalar/text/error` does not match the code — `"value"` is a
    discriminant of the `QueryResult.result_type` union and is not among the
    claimed four. -/
theorem scalar_not_a_result_kind :
    resultTypeValid "value" = true ∧ "value" ∉ claimedResultKinds := by
  constructor
  · rfl
  · decide

/-- C5 (amended): every Query Result's result kind ranges over exactly the
    four discriminants `table/value/text/error`, and `renderResult`
    dispatches the non-table kinds to the corresponding views. -/
theorem result_kinds_exact (s q ex : String) (d : JsonVal)
    (pc : Option String) (t : Nat) :
    (resultTypeValid s = true ↔
      (s = "table" ∨ s = "value" ∨ s = "text" ∨ s = "error"))
    ∧ renderResult ⟨q, "value", d, ex, pc, t⟩ = ResultView.valueView d
    ∧ renderResult ⟨q, "text", d, ex, pc, t⟩ = ResultView.textView d
    ∧ renderResult ⟨q, "error", d, ex, pc, t⟩ = ResultView.errorView ex := by
  refine ⟨?_, rfl, rfl, rfl⟩
  simp [resultTypeValid, or_assoc]

/-- C7: a dropped file whose computed extension (lowercased; the whole
    lowercased name when the name has no dot) is not `.csv`, `.xlsx` or
    `.xls` is rejected with the upload-validation error and no upload
    request is issued; a file with a valid extension issues exactly one
    upload request; in particular every dotless filename is rejected. -/
theorem upload_validation (name : List Char) :
    (onDrop name = UploadAction.uploadRequest ↔ fileExt name ∈ validTypes)
    ∧ (uploadRequestCount (onDrop name) =
        if fileExt name ∈ validTypes then 1 else 0)
    ∧ (fileExt name ∉ validTypes →
        onDrop name = UploadAction.rejected invalidFileTypeMsg)
    ∧ ('.' ∉ name → onDrop name = UploadAction.rejected invalidFileTypeMsg) := by
  refine ⟨?_, ?_, ?_, ?_⟩
  · by_cases hm : fileExt name ∈ validTypes <;> simp [onDrop, hm]
  · by_cases hm : fileExt name ∈ validTypes <;>
      simp [onDrop, uploadRequestCount, hm]
  · intro hm
    simp [onDrop, hm]
  · intro hd
    have hm : fileExt name ∉ validTypes :=
      fun hv => hd (dot_mem_of_fileExt_valid hv)
    simp [onDrop, hm]

/-- C7 witness: the dotless name `datacsv` is rejected with the
    upload-validation error. -/
theorem upload_validation_witness :
    onDrop "datacsv".data = UploadAction.rejected invalidFileTypeMsg :=
  (upload_validation "datacsv".data).2.2.2 (by decide)

/-- C8: the chart kind of a Chart Config ranges over exactly
    `bar/line/pie/scatter/area`; on non-empty data `renderChart` produces a
    chart of the matching kind for each of the five, and falls through to the
    non-crashing unsupported-type branch for every other value. -/
theorem chart_kinds_total (ct ti : String) (xa ya xl yl : Option String)
    (data : List Row) (h : data ≠ []) :
    (chartTypeValid ct = true ↔
      (ct = "bar" ∨ ct = "line" ∨ ct = "pie" ∨ ct = "scatter" ∨ ct = "area"))
    ∧ renderChart ⟨"bar", ti, xa, ya, xl, yl⟩ data =
        ChartView.barChart data (chartXKey ⟨"bar", ti, xa, ya, xl, yl⟩ data)
          (chartYKey ⟨"bar", ti, xa, ya, xl, yl⟩ data)
    ∧ renderChart ⟨"line", ti, xa, ya, xl, yl⟩ data =
        ChartView.lineChart data (chartXKey ⟨"line", ti, xa, ya, xl, yl⟩ data)
          (chartYKey ⟨"line", ti, xa, ya, xl, yl⟩ data)
    ∧ renderChart ⟨"pie", ti, xa, ya, xl, yl⟩ data =
        ChartView.pieChart
          (pieData (chartYKey ⟨"pie", ti, xa, ya, xl, yl⟩ data) data)
          (chartXKey ⟨"pie", ti, xa, ya, xl, yl⟩ data)
          (chartYKey ⟨"pie", ti, xa, ya, xl, yl⟩ data)
    ∧ renderChart ⟨"scatter", ti, xa, ya, xl, yl⟩ data =
        ChartView.scatterChart data
          (chartXKey ⟨"scatter", ti, xa, ya, xl, yl⟩ data)
          (chartYKey ⟨"scatter", ti, xa, ya, xl, yl⟩ data)
    ∧ renderChart ⟨"area", ti, xa, ya, xl, yl⟩ data =
        ChartView.areaChart data (chartXKey ⟨"area", ti, xa, ya, xl, yl⟩ data)
          (chartYKey ⟨"area", ti, xa, ya, xl, yl⟩ data)
    ∧ (chartTypeValid ct = false →
        renderChart ⟨ct, ti, xa, ya, xl, yl⟩ data =
          ChartView.unsupported ct) := by
  refine ⟨?_, ?_, ?_, ?_, ?_, ?_, ?_⟩
  · simp [chartTypeValid, or_assoc]
  · simp [renderChart, h]
  · simp [renderChart, h]
  · simp [renderChart, h]
  · simp [renderChart, h]
  · simp [renderChart, h]
  · intro hv
    simp only [chartTypeValid, Bool.or_eq_false_iff, decide_eq_false_iff_not] at hv
    obtain ⟨⟨⟨⟨h1, h2⟩, h3⟩, h4⟩, h5⟩ := hv
    simp [renderChart, h, h1, h2, h3, h4, h5]

/-- C8 witness: a one-row dataset with the unknown kind `donut` renders the
    unsupported-type branch. -/
theorem chart_kinds_total_witness :
    renderChart ⟨"donut", "t", none, none, none, none⟩
      [[("k", CellValue.vNum 1)]] = ChartView.unsupported "donut" :=
  (chart_kinds_total "donut" "t" none none none none [[("k", CellValue.vNum 1)]]
    (by decide)).2.2.2.2.2.2 (by decide)

/-- C4 (counterexample): after a successful chart is displayed, a later
    response with `success = false` sets the error text but the previously
    stored chart is still stored and rendered — contradicting the claim that
    on `success=false` the frontend does not store or render any chart. -/
theorem chart_failure_still_renders_previous_chart :
    displaysChart
      (handleGenerate
        { chartData := some
            { success := true
            , config := ⟨"bar", "t", none, none, none, none⟩
            , data := [[("k", CellValue.vNum 1)]]
            , explanation := ""
            , error := none }
        , errorMsg := none }
        (Except.ok
          { success := false
          , config := ⟨"bar", "t", none, none, none, none⟩
          , data := []
          , explanation := ""
          , error := some "boom" })) = true
    ∧ (handleGenerate
        { chartData := some
            { success := true
            , config := ⟨"bar", "t", none, none, none, none⟩
            , data := [[("k", CellValue.vNum 1)]]
            , explanation := ""
            , error := none }
        , errorMsg := none }
        (Except.ok
          { success := false
          , config := ⟨"bar", "t", none, none, none, none⟩
          , data := []
          , explanation := ""
          , error := some "boom" })).errorMsg = some "boom" :=
  ⟨rfl, rfl⟩

/-- C4 (amended): a chart request referencing a column absent from the
    dataset's column list yields `success = false` with a descriptive error
    (spec-modelled backend); for every response with `success = false` the
    frontend displays the error text, falling back to the fixed message when
    the error field is absent or empty, and does not store the failed
    response — the previously stored chart state, if any, is what remains;
    a rejected request behaves the same with the thrown message. -/
theorem chart_error_handling
    (columns : List String) (col : String) (cfg : ChartConfig)
    (rows : List Row) (ex : String)
    (st : ChartDisplayState) (r : ChartResponse) (e : Thrown)
    (hcol : col ∉ columns) (hr : r.success = false) :
    ((generateChartModel columns col cfg rows ex).success = false
      ∧ (generateChartModel columns col cfg rows ex).error.isSome = true)
    ∧ ((handleGenerate st (Except.ok r)).errorMsg =
        some (jsOrString r.error "Failed to generate chart")
      ∧ (handleGenerate st (Except.ok r)).chartData = st.chartData)
    ∧ ((handleGenerate st (Except.error e)).errorMsg =
        some (thrownMessage "Failed to generate chart" e)
      ∧ (handleGenerate st (Except.error e)).chartData = st.chartData) := by
  refine ⟨⟨?_, ?_⟩, ⟨?_, ?_⟩, rfl, rfl⟩
  · simp [generateChartModel, hcol]
  · simp [generateChartModel, hcol]
  · simp [handleGenerate, hr]
  · simp [handleGenerate, hr]

/-- C4 witness: requesting a chart over the missing column `region` fails
    with a present error, and the frontend shows the fallback text while
    keeping an empty chart state empty. -/
theorem chart_error_handling_witness :
    ((generateChartModel ["sales"] "region"
        ⟨"bar", "t", none, none, none, none⟩ [] "").success = false
      ∧ (generateChartModel ["sales"] "region"
        ⟨"bar", "t", none, none, none, none⟩ [] "").error.isSome = true)
    ∧ ((handleGenerate ⟨none, none⟩ (Except.ok
        { success := false
        , config := ⟨"bar", "t", none, none, none, none⟩
        , data := []
        , explanation := ""
        , error := none })).errorMsg =
          some (jsOrString none "Failed to generate chart")
      ∧ (handleGenerate ⟨none, none⟩ (Except.ok
        { success := false
        , config := ⟨"bar", "t", none, none, none, none⟩
        , data := []
        , explanation := ""
        , error := none })).chartData = (none : Option ChartResponse))
    ∧ ((handleGenerate ⟨none, none⟩
          (Except.error Thrown.nonError)).errorMsg =
        some (thrownMessage "Failed to generate chart" Thrown.nonError)
      ∧ (handleGenerate ⟨none, none⟩
          (Except.error Thrown.nonError)).chartData =
        (none : Option ChartResponse)) :=
  chart_error_handling ["sales"] "region" ⟨"bar", "t", none, none, none, none⟩
    [] "" ⟨none, none⟩
    { success := false
    , config := ⟨"bar", "t", none, none, none, none⟩
    , data := []
    , explanation := ""
    , error := none }
    Thrown.nonError (by decide) rfl

theorem totalPages_nil (P : Nat) (hP : 1 ≤ P) : totalPages 0 P = 0 := by
  unfold totalPages
  exact Nat.div_eq_of_lt (by omega)

theorem totalPages_succ (m P : Nat) (hP : 1 ≤ P) :
    totalPages (m + 1) P = totalPages (m + 1 - P) P + 1 := by
  unfold totalPages
  rcases le_or_lt (m + 1) P with h | h
  · have h1 : m + 1 + P - 1 = m + P := by omega
    have h2 : m + 1 - P = 0 := by omega
    rw [h1, h2]
    have h3 : m / P = 0 := Nat.div_eq_of_lt (by omega)
    have h4 : (m + P) / P = m / P + 1 := Nat.add_div_right m (by omega)
    have h5 : (0 + P - 1) / P = 0 := Nat.div_eq_of_lt (by omega)
    omega
  · have h1 : m + 1 + P - 1 = m + P := by omega
    have h2 : m + 1 - P + P - 1 = m + 1 - 1 := by omega
    rw [h1, h2]
    have h4 : (m + P) / P = m / P + 1 := Nat.add_div_right m (by omega)
    simp only [Nat.add_sub_cancel]
    omega

theorem pages_concat_aux (P : Nat) (hP : 1 ≤ P) :
    ∀ n (l : List Row), l.length ≤ n →
      (List.range (totalPages l.length P)).flatMap
        (fun i => (l.drop (i * P)).take P) = l := by
  intro n
  induction n with
  | zero =>
    intro l hl
    have hnil : l = [] := List.eq_nil_of_length_eq_zero (by omega)
    subst hnil
    simp [totalPages_nil P hP]
  | succ n ih =>
    intro l hl
    cases hcase : l with
    | nil => simp [totalPages_nil P hP]
    | cons x xs =>
      subst hcase
      have hlen : (x :: xs).length = xs.length + 1 := by simp
      rw [hlen, totalPages_succ _ _ hP]
      rw [List.range_succ_eq_map]
      simp only [List.flatMap_cons, Nat.zero_mul, List.drop_zero]
      have hfun : ∀ i : Nat,
          ((x :: xs).drop ((i + 1) * P)).take P
            = (((x :: xs).drop P).drop (i * P)).take P := by
        intro i
        rw [List.drop_drop]
        congr 2
        ring
      have hdroplen : ((x :: xs).drop P).length = xs.length + 1 - P := by
        simp [List.length_drop]
      have hrec := ih ((x :: xs).drop P) (by rw [hdroplen]; omega)
      rw [hdroplen] at hrec
      calc List.take P (x :: xs) ++
            (List.map (fun i => i + 1)
              (List.range (totalPages (xs.length + 1 - P) P))).flatMap
              (fun i => ((x :: xs).drop (i * P)).take P)
          = List.take P (x :: xs) ++
            (List.range (totalPages (xs.length + 1 - P) P)).flatMap
              (fun i => ((x :: xs).drop ((i + 1) * P)).take P) := by
            rw [List.flatMap_map]
        _ = List.take P (x :: xs) ++
            (List.range (totalPages (xs.length + 1 - P) P)).flatMap
              (fun i => (((x :: xs).drop P).drop (i * P)).take P) := by
            simp only [hfun]
        _ = List.take P (x :: xs) ++ (x :: xs).drop P := by rw [hrec]
        _ = x :: xs := List.take_append_drop P (x :: xs)

/-- C6: for every page request with `page_size P ≥ 1` against a dataset of
    `R` rows, `total_pages` is the ceiling of `R / P`, page `p+1`'s slice is
    exactly rows `p*P` through `min((p+1)*P, R) - 1` of the stored order,
    and concatenating all pages in page order reproduces the dataset. -/
theorem pagination_correct (rows : List Row) (P : Nat) (hP : 1 ≤ P) :
    (totalPages rows.length P = rows.length ⌈/⌉ P)
    ∧ (∀ p j : Nat,
        (pageSlice rows (p + 1) P)[j]? =
          if j < P then rows[p * P + j]? else none)
    ∧ (∀ p : Nat, (pageSlice rows (p + 1) P).length
        = min ((p + 1) * P) rows.length - p * P)
    ∧ (List.range (totalPages rows.length P)).flatMap
        (fun i => pageSlice rows (i + 1) P) = rows := by
  refine ⟨rfl, ?_, ?_, ?_⟩
  · intro p j
    unfold pageSlice
    simp only [Nat.add_sub_cancel, List.getElem?_take, List.getElem?_drop]
  · intro p
    unfold pageSlice
    simp only [Nat.add_sub_cancel, List.length_take, List.length_drop,
      Nat.succ_mul]
    omega
  · have h := pages_concat_aux P hP rows.length rows (le_refl _)
    unfold pageSlice
    simpa [Nat.add_sub_cancel] using h

/-- C6 witness: with three rows and page size two, the pages `[r1, r2]` and
    `[r3]` concatenate back to the dataset. -/
theorem pagination_correct_witness :
    (List.range (totalPages
        ([[("a", CellValue.vNum 1)], [("a", CellValue.vNum 2)],
          [("a", CellValue.vNum 3)]] : List Row).length 2)).flatMap
      (fun i => pageSlice
        [[("a", CellValue.vNum 1)], [("a", CellValue.vNum 2)],
          [("a", CellValue.vNum 3)]] (i + 1) 2)
    = [[("a", CellValue.vNum 1)], [("a", CellValue.vNum 2)],
        [("a", CellValue.vNum 3)]] :=
  (pagination_correct
    [[("a", CellValue.vNum 1)], [("a", CellValue.vNum 2)],
      [("a", CellValue.vNum 3)]] 2 (by decide)).2.2.2

/-- C1 (the code evaluated at the failing input): under an active ascending
    sort on column `a`, the dataset `[{a: 2}, {a: 1}]` (page 1, page size 50)
    displays row `{a: 1}` — the row of original index 1 — at position 0; yet
    `saveEdit` for an edit of that displayed row sends global row index
    `(1-1)*50 + 0 = 0`.  Applying the cell update at the sent index and
    reading back the edited row's cell `(1, a)` does not return the updated
    value `99`; the update lands on the unrelated row of original index 0.
    This contradicts the claim (and the spec's update-then-read property)
    whenever a sort column is active. -/
theorem saveEdit_sorted_misaddresses :
    (sortedData [[("a", CellValue.vNum 2)], [("a", CellValue.vNum 1)]]
        (some "a") SortDir.asc)[0]?
      = some [("a", CellValue.vNum 1)]
    ∧ ([[("a", CellValue.vNum 2)], [("a", CellValue.vNum 1)]] : List Row)[1]?
      = some [("a", CellValue.vNum 1)]
    ∧ (saveEdit 1 50 0 "a" "99".data).rowIndex = 0
    ∧ (saveEdit 1 50 0 "a" "99".data).newValue = CellValue.vNum 99
    ∧ readCell
        (updateCellStore [[("a", CellValue.vNum 2)], [("a", CellValue.vNum 1)]]
          (saveEdit 1 50 0 "a" "99".data).rowIndex "a"
          (saveEdit 1 50 0 "a" "99".data).newValue) 1 "a"
      = some (CellValue.vNum 1)
    ∧ readCell
        (updateCellStore [[("a", CellValue.vNum 2)], [("a", CellValue.vNum 1)]]
          (saveEdit 1 50 0 "a" "99".data).rowIndex "a"
          (saveEdit 1 50 0 "a" "99".data).newValue) 0 "a"
      = some (CellValue.vNum 99) := by
  refine ⟨?_, ?_, ?_, ?_, ?_, ?_⟩ <;> decide

theorem mem_insertSorted {α : Type} (cmp : α → α → Int) (x a : α)
    (l : List α) : a ∈ insertSorted cmp x l ↔ a = x ∨ a ∈ l := by
  induction l with
  | nil => simp [insertSorted]
  | cons y ys ih =>
    unfold insertSorted
    split
    · simp [List.mem_cons]
    · simp only [List.mem_cons, ih]
      tauto

theorem insertSorted_perm {α : Type} (cmp : α → α → Int) (x : α)
    (l : List α) : (insertSorted cmp x l).Perm (x :: l) := by
  induction l with
  | nil => simp [insertSorted]
  | cons y ys ih =>
    unfold insertSorted
    split
    · exact List.Perm.refl _
    · exact (List.Perm.cons y ih).trans (List.Perm.swap x y ys)

theorem jsSort_foldl_perm {α : Type} (cmp : α → α → Int) :
    ∀ (l acc : List α),
      (l.foldl (fun acc x => insertSorted cmp x acc) acc).Perm (l ++ acc) := by
  intro l
  induction l with
  | nil => intro acc; simp
  | cons x xs ih =>
    intro acc
    simp only [List.foldl_cons, List.cons_append]
    have h1 := ih (insertSorted cmp x acc)
    have h2 : (xs ++ insertSorted cmp x acc).Perm (xs ++ x :: acc) :=
      List.Perm.append_left xs (insertSorted_perm cmp x acc)
    have h3 : (xs ++ x :: acc).Perm (x :: (xs ++ acc)) :=
      List.perm_middle
    exact (h1.trans h2).trans h3

theorem jsSort_perm {α : Type} (cmp : α → α → Int) (l : List α) :
    (jsSort cmp l).Perm l := by
  have h := jsSort_foldl_perm cmp l []
  simpa [jsSort] using h

theorem insertSorted_pairwise_ge {α : Type} (k : α → Int) (x : α)
    (l : List α) (h : l.Pairwise (fun a b => k b ≤ k a)) :
    (insertSorted (fun a b => k b - k a) x l).Pairwise
      (fun a b => k b ≤ k a) := by
  induction l with
  | nil => simp [insertSorted]
  | cons y ys ih =>
    rw [List.pairwise_cons] at h
    obtain ⟨hy, hys⟩ := h
    unfold insertSorted
    split
    · rename_i hlt
      rw [List.pairwise_cons]
      refine ⟨?_, ?_⟩
      · intro z hz
        rcases List.mem_cons.mp hz with hz | hz
        · subst hz; omega
        · have := hy z hz; omega
      · rw [List.pairwise_cons]
        exact ⟨hy, hys⟩
    · rename_i hge
      rw [List.pairwise_cons]
      refine ⟨?_, ih hys⟩
      intro z hz
      rcases (mem_insertSorted _ x z ys).mp hz with hz | hz
      · subst hz; omega
      · exact hy z hz

theorem jsSort_pairwise_ge {α : Type} (k : α → Int) (l : List α) :
    (jsSort (fun a b => k b - k a) l).Pairwise (fun a b => k b ≤ k a) := by
  unfold jsSort
  have haux : ∀ (m acc : List α), acc.Pairwise (fun a b => k b ≤ k a) →
      (m.foldl (fun acc x => insertSorted (fun a b => k b - k a) x acc)
        acc).Pairwise (fun a b => k b ≤ k a) := by
    intro m
    induction m with
    | nil => intro acc h; simpa using h
    | cons x xs ih =>
      intro acc h
      simp only [List.foldl_cons]
      exact ih _ (insertSorted_pairwise_ge k x acc h)
  exact haux l [] (by simp)

/-- C10: for a pie chart the rendered slice list is `take 10` of a sorted
    copy of the data (the sort acts on `[...data]`, so the chart data list
    itself is left intact): at most 10 slices, in descending order of the
    numeric y-axis value (non-numeric counted as 0), the sorted copy is a
    permutation of the data, and every record left out has a value no larger
    than every rendered slice — i.e. the slices are the 10 records with the
    largest values. -/
theorem pie_top10 (yKey : String) (data : List Row) :
    (pieData yKey data).length ≤ 10
    ∧ pieData yKey data = (jsSort (pieCompare yKey) data).take 10
    ∧ (jsSort (pieCompare yKey) data).Perm data
    ∧ (pieData yKey data).Pairwise
        (fun a b => pieValue yKey b ≤ pieValue yKey a)
    ∧ ∀ d ∈ (jsSort (pieCompare yKey) data).drop 10,
        ∀ s ∈ pieData yKey data, pieValue yKey d ≤ pieValue yKey s := by
  have hpair : (jsSort (pieCompare yKey) data).Pairwise
      (fun a b => pieValue yKey b ≤ pieValue yKey a) :=
    jsSort_pairwise_ge (pieValue yKey) data
  refine ⟨?_, rfl, jsSort_perm _ data, ?_, ?_⟩
  · unfold pieData
    simp
  · unfold pieData
    exact hpair.sublist (List.take_sublist _ _)
  · intro d hd s hs
    have hsplit := List.take_append_drop 10 (jsSort (pieCompare yKey) data)
    rw [← hsplit] at hpair
    rw [List.pairwise_append] at hpair
    exact hpair.2.2 s hs d hd

theorem splitOutsideQuotes_ne_nil (sep : Char) (b : Bool) (s : List Char) :
    splitOutsideQuotes sep b s ≠ [] := by
  induction s generalizing b with
  | nil => simp [splitOutsideQuotes]
  | cons c cs ih =>
    unfold splitOutsideQuotes
    split
    · cases h : splitOutsideQuotes sep (!b) cs with
      | nil => exact absurd h (ih (!b))
      | cons x xs => simp [consHead]
    · split
      · simp
      · cases h : splitOutsideQuotes sep b cs with
        | nil => exact absurd h (ih b)
        | cons x xs => simp [consHead]

theorem consHead_eq (c : Char) (l : List (List Char)) :
    consHead c l = (c :: l.headI) :: l.tail := by
  cases l <;> rfl

theorem consSeg_nil (l : List (List Char)) (h : l ≠ []) : consSeg [] l = l := by
  cases l with
  | nil => exact absurd rfl h
  | cons x xs => simp [consSeg]

theorem consHead_consSeg (c : Char) (s : List Char) (l : List (List Char)) :
    consHead c (consSeg s l) = consSeg (c :: s) l := by
  simp [consHead, consSeg]

theorem split_step (sep : Char) (b : Bool) (c : Char) (rest : List Char) :
    splitOutsideQuotes sep b (c :: rest) =
      if c = dq then consHead c (splitOutsideQuotes sep (!b) rest)
      else if c = sep ∧ b = false then [] :: splitOutsideQuotes sep false rest
      else consHead c (splitOutsideQuotes sep b rest) := rfl

theorem splitSeg_raw (sep : Char) (s : List Char) (hq : dq ∉ s)
    (hs : sep ∉ s) : SegP sep s := by
  induction s with
  | nil =>
    intro t
    simp only [List.nil_append]
    exact (consSeg_nil _ (splitOutsideQuotes_ne_nil sep false t)).symm
  | cons c cs ih =>
    simp only [List.mem_cons, not_or] at hq hs
    intro t
    have hcd : ¬(c = dq) := fun h => hq.1 h.symm
    have hcs : ¬(c = sep ∧ (false : Bool) = false) :=
      fun h => hs.1 h.1.symm
    simp only [List.cons_append]
    rw [split_step, if_neg hcd, if_neg hcs, ih hq.2 hs.2 t, consHead_consSeg]

theorem doubleQuotes_cons (c : Char) (cs : List Char) :
    doubleQuotes (c :: cs) =
      if c = dq then dq :: dq :: doubleQuotes cs
      else c :: doubleQuotes cs := rfl

theorem splitSeg_quoted_inner (sep : Char) (s : List Char) :
    ∀ t, splitOutsideQuotes sep true (doubleQuotes s ++ t)
      = consSeg (doubleQuotes s) (splitOutsideQuotes sep true t) := by
  induction s with
  | nil =>
    intro t
    simp only [doubleQuotes, List.nil_append]
    exact (consSeg_nil _ (splitOutsideQuotes_ne_nil sep true t)).symm
  | cons c cs ih =>
    intro t
    by_cases hc : c = dq
    · subst hc
      rw [doubleQuotes_cons, if_pos rfl]
      simp only [List.cons_append]
      rw [split_step, if_pos rfl, Bool.not_true]
      rw [split_step, if_pos rfl, Bool.not_false]
      rw [ih t, consHead_consSeg, consHead_consSeg]
    · rw [doubleQuotes_cons, if_neg hc]
      simp only [List.cons_append]
      rw [split_step, if_neg hc, if_neg (by simp)]
      rw [ih t, consHead_consSeg]

theorem splitSeg_escape (sep : Char) (hsep : sep = ',' ∨ sep = nl)
    (s : List Char) : SegP sep (escapeField s) := by
  have hsd : sep ≠ dq := by
    rcases hsep with h | h <;> (subst h; decide)
  unfold escapeField
  split
  · intro t
    rw [List.cons_append, split_step, if_pos rfl, Bool.not_false]
    rw [List.append_assoc, List.singleton_append]
    rw [splitSeg_quoted_inner sep s (dq :: t)]
    rw [split_step, if_pos rfl, Bool.not_true]
    simp [consSeg, consHead_eq, List.append_assoc]
  · rename_i hclean
    push_neg at hclean
    obtain ⟨h1, h2, h3⟩ := hclean
    rcases hsep with h | h
    · subst h; exact splitSeg_raw _ s h2 h1
    · subst h; exact splitSeg_raw _ s h2 h3

theorem split_nil_eq (sep : Char) (b : Bool) :
    splitOutsideQuotes sep b [] = [[]] := rfl

theorem SegP_joinWith (sep j : Char) (hj1 : j ≠ sep) (hj2 : j ≠ dq) :
    ∀ F : List (List Char), (∀ f ∈ F, SegP sep f) → SegP sep (joinWith j F) := by
  intro F
  induction F with
  | nil =>
    intro _ t
    simp only [joinWith, List.nil_append]
    exact (consSeg_nil _ (splitOutsideQuotes_ne_nil sep false t)).symm
  | cons f F2 ih =>
    intro hF
    cases F2 with
    | nil =>
      simpa [joinWith] using hF f (by simp)
    | cons f2 F3 =>
      intro t
      have hjoin : joinWith j (f :: f2 :: F3) =
          f ++ j :: joinWith j (f2 :: F3) := rfl
      rw [hjoin, List.append_assoc, List.cons_append]
      have hf : SegP sep f := hF f (by simp)
      rw [hf (j :: (joinWith j (f2 :: F3) ++ t))]
      rw [split_step, if_neg hj2, if_neg (fun h => hj1 h.1)]
      rw [ih (fun g hg => hF g (by simp [hg])) t]
      simp [consSeg, consHead_eq, List.append_assoc]

theorem split_join_self (sep : Char) (hsd : sep ≠ dq) :
    ∀ F : List (List Char), F ≠ [] → (∀ f ∈ F, SegP sep f) →
      splitOutsideQuotes sep false (joinWith sep F) = F := by
  intro F
  induction F with
  | nil => intro h; exact absurd rfl h
  | cons f F2 ih =>
    intro _ hF
    cases F2 with
    | nil =>
      have h := hF f (by simp) []
      simpa [consSeg, split_nil_eq] using h
    | cons f2 F3 =>
      have hjoin : joinWith sep (f :: f2 :: F3) =
          f ++ sep :: joinWith sep (f2 :: F3) := rfl
      rw [hjoin]
      rw [hF f (by simp) (sep :: joinWith sep (f2 :: F3))]
      rw [split_step, if_neg hsd, if_pos ⟨rfl, rfl⟩]
      rw [ih (by simp) (fun g hg => hF g (by simp [hg]))]
      simp [consSeg]

theorem undoubleQuotes_dq_dq (x : List Char) :
    undoubleQuotes (dq :: dq :: x) = dq :: undoubleQuotes x := by
  rw [show undoubleQuotes (dq :: dq :: x)
        = if dq = dq ∧ dq = dq then dq :: undoubleQuotes x
          else dq :: undoubleQuotes (dq :: x) from rfl]
  rw [if_pos ⟨rfl, rfl⟩]

theorem undoubleQuotes_cons_ne (c : Char) (x : List Char) (hc : c ≠ dq) :
    undoubleQuotes (c :: x) = c :: undoubleQuotes x := by
  cases x with
  | nil => rfl
  | cons d cs =>
    rw [show undoubleQuotes (c :: d :: cs)
          = if c = dq ∧ d = dq then dq :: undoubleQuotes cs
            else c :: undoubleQuotes (d :: cs) from rfl]
    rw [if_neg (fun h => hc h.1)]

theorem undouble_double (s : List Char) :
    undoubleQuotes (doubleQuotes s) = s := by
  induction s with
  | nil => rfl
  | cons c cs ih =>
    by_cases hc : c = dq
    · subst hc
      rw [doubleQuotes_cons, if_pos rfl, undoubleQuotes_dq_dq, ih]
    · rw [doubleQuotes_cons, if_neg hc, undoubleQuotes_cons_ne c _ hc, ih]

theorem unescape_clean (s : List Char) (h : dq ∉ s) : unescapeField s = s := by
  cases s with
  | nil => rfl
  | cons c cs =>
    simp only [List.mem_cons, not_or] at h
    have hc : ¬(c = dq) := fun hh => h.1 hh.symm
    simp [unescapeField, hc]

theorem unescape_escape (s : List Char) :
    unescapeField (escapeField s) = s := by
  unfold escapeField
  split
  · have h1 : unescapeField (dq :: (doubleQuotes s ++ [dq]))
        = undoubleQuotes (doubleQuotes s ++ [dq]).dropLast := by
      simp [unescapeField]
    rw [h1, List.dropLast_concat, undouble_double]
  · rename_i h
    push_neg at h
    exact unescape_clean s h.2.1

/-- C9 (amended): for a non-empty record list whose first record has at
    least one key and whose keys contain no comma, double quote or newline,
    `downloadCSV` emits the header row of the first record's keys followed by
    one line per record in original order with the claimed escaping, and
    parsing the emitted CSV back yields exactly the header fields and the
    original string value of every field. -/
theorem downloadCSV_roundTrip (r0 : Row) (rs : List Row)
    (h0 : rowKeys r0 ≠ [])
    (hkeys : ∀ k ∈ rowKeys r0, ',' ∉ k.data ∧ dq ∉ k.data ∧ nl ∉ k.data) :
    downloadCSV (r0 :: rs)
      = joinWith nl
          (joinWith ',' ((rowKeys r0).map String.data) ::
            (r0 :: rs).map (fun r => joinWith ','
              ((rowKeys r0).map
                (fun h => escapeField (stringValue (lookupRow r h))))))
    ∧ parseCSV (downloadCSV (r0 :: rs))
      = ((rowKeys r0).map String.data) ::
          (r0 :: rs).map (fun r =>
            (rowKeys r0).map (fun h => stringValue (lookupRow r h))) := by
  have hH : ∀ f ∈ (rowKeys r0).map String.data,
      dq ∉ f ∧ ',' ∉ f ∧ nl ∉ f := by
    intro f hf
    simp only [List.mem_map] at hf
    obtain ⟨k, hk, rfl⟩ := hf
    exact ⟨(hkeys k hk).2.1, (hkeys k hk).1, (hkeys k hk).2.2⟩
  have hHne : (rowKeys r0).map String.data ≠ [] := by
    simpa using h0
  have hLine0comma :
      splitOutsideQuotes ',' false
        (joinWith ',' ((rowKeys r0).map String.data))
        = (rowKeys r0).map String.data :=
    split_join_self ',' (by decide) _ hHne
      (fun f hf => splitSeg_raw ',' f (hH f hf).1 (hH f hf).2.1)
  have hLine0nl : SegP nl (joinWith ',' ((rowKeys r0).map String.data)) :=
    SegP_joinWith nl ',' (by decide) (by decide) _
      (fun f hf => splitSeg_raw nl f (hH f hf).1 (hH f hf).2.2)
  have hFne : ∀ r : Row,
      (rowKeys r0).map
        (fun h => escapeField (stringValue (lookupRow r h))) ≠ [] := by
    intro r
    simpa using h0
  have hLineRcomma : ∀ r : Row,
      splitOutsideQuotes ',' false
        (joinWith ',' ((rowKeys r0).map
          (fun h => escapeField (stringValue (lookupRow r h)))))
        = (rowKeys r0).map
            (fun h => escapeField (stringValue (lookupRow r h))) := by
    intro r
    refine split_join_self ',' (by decide) _ (hFne r) ?_
    intro f hf
    simp only [List.mem_map] at hf
    obtain ⟨k, hk, rfl⟩ := hf
    exact splitSeg_escape ',' (Or.inl rfl) _
  have hLineRnl : ∀ r : Row,
      SegP nl (joinWith ',' ((rowKeys r0).map
        (fun h => escapeField (stringValue (lookupRow r h))))) := by
    intro r
    refine SegP_joinWith nl ',' (by decide) (by decide) _ ?_
    intro f hf
    simp only [List.mem_map] at hf
    obtain ⟨k, hk, rfl⟩ := hf
    exact splitSeg_escape nl (Or.inr rfl) _
  have hdl : downloadCSV (r0 :: rs)
      = joinWith nl
          (joinWith ',' ((rowKeys r0).map String.data) ::
            (r0 :: rs).map (fun r => joinWith ','
              ((rowKeys r0).map
                (fun h => escapeField (stringValue (lookupRow r h)))))) := rfl
  refine ⟨hdl, ?_⟩
  have hTop :
      splitOutsideQuotes nl false (downloadCSV (r0 :: rs))
        = joinWith ',' ((rowKeys r0).map String.data) ::
            (r0 :: rs).map (fun r => joinWith ','
              ((rowKeys r0).map
                (fun h => escapeField (stringValue (lookupRow r h))))) := by
    rw [hdl]
    refine split_join_self nl (by decide) _ (by simp) ?_
    intro line hline
    rcases List.mem_cons.mp hline with h | h
    · subst h; exact hLine0nl
    · simp only [List.mem_map] at h
      obtain ⟨r, hr, rfl⟩ := h
      exact hLineRnl r
  have hrecord : ∀ r : Row,
      (splitOutsideQuotes ',' false
        (joinWith ',' ((rowKeys r0).map
          (fun h => escapeField (stringValue (lookupRow r h)))))).map
            unescapeField
      = (rowKeys r0).map (fun h => stringValue (lookupRow r h)) := by
    intro r
    rw [hLineRcomma r, List.map_map]
    apply List.map_congr_left
    intro k _
    simp only [Function.comp]
    exact unescape_escape _
  unfold parseCSV
  rw [hTop]
  simp only [List.map_cons, List.map_map]
  congr 1
  · rw [hLine0comma]
    have hcln : ∀ f ∈ (rowKeys r0).map String.data, unescapeField f = f :=
      fun f hf => unescape_clean f (hH f hf).1
    calc ((rowKeys r0).map String.data).map unescapeField
        = ((rowKeys r0).map String.data).map id := List.map_congr_left hcln
      _ = (rowKeys r0).map String.data := List.map_id _
  · congr 1
    · exact hrecord r0
    · apply List.map_congr_left
      intro r _
      simp only [Function.comp]
      exact hrecord r

/-- C9 witness: a record with a comma and a null value round-trips — the
    comma-carrying value is quoted on emission and recovered on parsing, the
    null becomes the empty string. -/
theorem downloadCSV_roundTrip_witness :
    parseCSV (downloadCSV
        [[("x", CellValue.vStr "a,b"), ("y", CellValue.vNull)]])
      = ((rowKeys [("x", CellValue.vStr "a,b"), ("y", CellValue.vNull)]).map
          String.data) ::
        ([[("x", CellValue.vStr "a,b"), ("y", CellValue.vNull)]] :
            List Row).map
          (fun r =>
            (rowKeys [("x", CellValue.vStr "a,b"),
                ("y", CellValue.vNull)]).map
              (fun h => stringValue (lookupRow r h))) :=
  (downloadCSV_roundTrip
    [("x", CellValue.vStr "a,b"), ("y", CellValue.vNull)] []
    (by decide) (by decide)).2

/-- C9 (counterexample): header keys are emitted unescaped, so a key
    containing a double quote corrupts the output — for the single record
    with key `a"b` and value `1`, the emitted CSV parses to one run-together
    record instead of the header row plus the record's field values, so the
    round-trip fails for this input and the claim as stated (quantified over
    every non-empty record list) is false. -/
theorem downloadCSV_key_quote_breaks_roundTrip :
    parseCSV (downloadCSV
        [[(String.mk ['a', dq, 'b'], CellValue.vStr "1")]])
      ≠ [[String.data (String.mk ['a', dq, 'b'])], ["1".data]]
    ∧ (parseCSV (downloadCSV
        [[(String.mk ['a', dq, 'b'], CellValue.vStr "1")]])).length = 1 := by
  constructor
  · decide
  · decide
